import Mathlib

/-!
Shallow embedding of the PGO memop-size specialization pass
(src/llvm/lib/Transforms/Instrumentation/PGOMemOPSizeOpt.cpp).

The decision-and-rewrite engine `MemOPSizeOpt::perform(MemOp MO)` is embedded
as a pure function `perform` over an explicit configuration record (the
cl::opt command-line options), an abstract single-value-range predicate
(the external `InstrProfIsSingleValRange` helper from the profile runtime,
which lives outside this repository's sources and is kept as a parameter),
and a record `MemOpSite` holding the externally supplied inputs of one
candidate call site (operation kind, value-profile record, block counts,
block frequencies, use edges).

Machine integers: all profile counts are uint64_t in the source; they are
modelled as `Nat` with explicit `% 2 ^ 64` where C wrap-around can occur
(the `TotalCount * MemOPPercentThreshold` product in `isProfitable`) and
with `SaturatingMultiply` modelled as a capped product.
-/

namespace PGOMemOP

/-- The cl::opt configuration knobs read by the pass (lines 62-111). -/
structure MemOPConfig where
  /-- pgo-memop-count-threshold, default 1000 (unsigned). -/
  MemOPCountThreshold : Nat
  /-- pgo-memop-percent-threshold, default 40 (unsigned). -/
  MemOPPercentThreshold : Nat
  /-- pgo-memop-max-version, default 3 (unsigned). -/
  MemOPMaxVersion : Nat
  /-- pgo-memop-scale-count, default true. -/
  MemOPScaleCount : Bool
  /-- pgo-memop-optimize-memcmp-bcmp, default true. -/
  MemOPOptMemcmpBcmp : Bool
  /-- memop-value-prof-max-opt-size, default 128 (unsigned). -/
  MemOpMaxOptSize : Nat
  /-- legacy value-profile mode switch (external cl::opt). -/
  UseOldMemOpValueProf : Bool
  /-- MemOPSizeLarge (external cl::opt, unsigned). -/
  MemOPSizeLarge : Nat
  /-- PreciseRangeLast, parsed from MemOPSizeRange (int64_t). -/
  PreciseRangeLast : Int
  deriving DecidableEq, Repr

/-- One value-profile entry: observed size value (read as int64_t `V` in the
planning loop) and its uint64_t occurrence count (lines 376-378). -/
structure InstrProfValueData where
  Value : Int
  Count : Nat
  deriving DecidableEq, Repr

/-- The value-profile record returned by `getValueProfDataFromInst` for the
IPVK_MemOPSize kind: the entries (`ValueDataArray`/`VDs`, length `NumVals`)
and the recorded `TotalCount` (lines 333-337). -/
structure ProfileRecord where
  vds : List InstrProfValueData
  total : Nat
  deriving DecidableEq, Repr

/-- Operation kind of a candidate call site: the three MemIntrinsic kinds
plus the two recognized library comparison routines (lines 152-227). -/
inductive MemOpKind
  | memcpyK
  | memmoveK
  | memsetK
  | memcmpK
  | bcmpK
  deriving DecidableEq, Repr

/-- Blocks of the rewritten dispatch region, for labelling phi incoming
edges: the retained default block and one case block per planned size. -/
inductive BlockTag
  | defaultB
  | caseB (sizeId : Int)
  deriving DecidableEq, Repr

/-- Externally supplied inputs of one candidate call site consumed by
`MemOPSizeOpt::perform`.  `bbCount` is `BFI.getBlockProfileCount` of the
host block, `bfi` is `BFI.getBlockFreq` as a map over block ids,
`preUses` is the list of (user id, used value id) use edges existing
before the rewrite, `callId`/`phiId` are the value ids of the original
call's result and of the freshly created merge phi. -/
structure MemOpSite where
  kind : MemOpKind
  profile : Option ProfileRecord
  bbCount : Option Nat
  bfi : Nat → Nat
  hostId : Nat
  defaultId : Nat
  mergeId : Nat
  retVoid : Bool
  callId : Nat
  phiId : Nat
  preUses : List (Nat × Nat)

/-- MemOPSizeKind (lines 297): which legacy group a size value falls in. -/
inductive MemOPSizeKind
  | PreciseValue
  | NonLargeGroup
  | LargeGroup
  deriving DecidableEq, Repr

/-- getMemOPSizeKind (lines 299-305). -/
def getMemOPSizeKind (cfg : MemOPConfig) (Value : Int) : MemOPSizeKind :=
  if Value = (cfg.MemOPSizeLarge : Int) ∧ cfg.MemOPSizeLarge ≠ 0 then .LargeGroup
  else if Value = cfg.PreciseRangeLast + 1 then .NonLargeGroup
  else .PreciseValue

/-- llvm::SaturatingMultiply on uint64_t: the product, capped at 2^64 - 1
on overflow. -/
def SaturatingMultiply (X Y : Nat) : Nat :=
  min (X * Y) (2 ^ 64 - 1)

/-- isProfitable (lines 308-315).  `TotalCount * MemOPPercentThreshold` is a
uint64_t product in the source, hence the explicit `% 2 ^ 64`. -/
def isProfitable (cfg : MemOPConfig) (Count TotalCount : Nat) : Bool :=
  if Count < cfg.MemOPCountThreshold then false
  else if Count < TotalCount * cfg.MemOPPercentThreshold % 2 ^ 64 / 100 then false
  else true

/-- getScaledCount (lines 317-324). -/
def getScaledCount (cfg : MemOPConfig) (Count Num Denom : Nat) : Nat :=
  if !cfg.MemOPScaleCount then Count
  else SaturatingMultiply Count Num / Denom

/-- The value-kind filter of the planning loop (lines 382-387): in legacy
mode only precise values are kept; in the default mode a sample is skipped
when the external single-value-range predicate `svr` rejects it or the
value exceeds MemOpMaxOptSize.  Returns true when the sample is skipped
(the loop's `continue`). -/
def skipSample (cfg : MemOPConfig) (svr : Int → Bool) (V : Int) : Bool :=
  if cfg.UseOldMemOpValueProf then
    decide (getMemOPSizeKind cfg V ≠ .PreciseValue)
  else
    !svr V || decide ((cfg.MemOpMaxOptSize : Int) < V)

/-- Running state of the planning loop (lines 368-375): the remaining
scaled and raw counts, the selected size ids and their (scaled) counts
(the entries pushed after the reserved default slot of `CaseCounts`), the
running maximum and the number of accepted versions.  The two Boolean
flags record that the source's asserts at lines 399 and 401 held at every
acceptance (`RemainCount >= C` and `SavedRemainCount >= VD.Count`). -/
structure PlanState where
  RemainCount : Nat
  SavedRemainCount : Nat
  SizeIds : List Int
  CaseCounts : List Nat
  MaxCount : Nat
  Version : Nat
  remainAssertOk : Bool
  savedAssertOk : Bool
  deriving DecidableEq, Repr

/-- The state update of one accepted sample (lines 394-402 and the
`++Version` of line 404). -/
def acceptSample (st : PlanState) (V : Int) (rawC C : Nat) : PlanState :=
  { RemainCount := st.RemainCount - C
    SavedRemainCount := st.SavedRemainCount - rawC
    SizeIds := st.SizeIds ++ [V]
    CaseCounts := st.CaseCounts ++ [C]
    MaxCount := if st.MaxCount < C then C else st.MaxCount
    Version := st.Version + 1
    remainAssertOk := st.remainAssertOk && decide (C ≤ st.RemainCount)
    savedAssertOk := st.savedAssertOk && decide (rawC ≤ st.SavedRemainCount) }

/-- The scaled count used for one sample inside the loop (lines 379-380). -/
def scaledOf (cfg : MemOPConfig) (Actual Saved : Nat) (VD : InstrProfValueData) : Nat :=
  if cfg.MemOPScaleCount then getScaledCount cfg VD.Count Actual Saved else VD.Count

/-- The planning loop over the value-profile entries (lines 376-406):
skip filtered samples, break at the first unprofitable sample, accept the
rest, and break once `++Version > MemOPMaxVersion` with a non-zero cap. -/
def planLoop (cfg : MemOPConfig) (svr : Int → Bool) (Actual Saved : Nat) :
    List InstrProfValueData → PlanState → PlanState
  | [], st => st
  | VD :: rest, st =>
    let C := scaledOf cfg Actual Saved VD
    if skipSample cfg svr VD.Value then
      planLoop cfg svr Actual Saved rest st
    else if !isProfitable cfg C st.RemainCount then
      st
    else
      let st' := acceptSample st VD.Value VD.Count C
      if cfg.MemOPMaxVersion < st'.Version ∧ cfg.MemOPMaxVersion ≠ 0 then st'
      else planLoop cfg svr Actual Saved rest st'

/-- Initial planning state (lines 368-375): `RemainCount = TotalCount`
(the actual count at this point), `SavedRemainCount = SavedTotalCount`. -/
def initState (Actual Saved : Nat) : PlanState :=
  ⟨Actual, Saved, [], [], 0, 0, true, true⟩

/-- Outcome of a successful `perform`: the accepted plan, the profile
metadata re-attached to the default call (`mdProf`, modelling the
`annotateValueSite` call of lines 470-473, `none` when all records were
promoted), the block frequency recorded on the merge block, the phi
incoming edges and the use edges after the rewrite. -/
structure PerformResult where
  SizeIds : List Int
  CaseCounts : List Nat
  RemainCount : Nat
  SavedRemainCount : Nat
  MaxCount : Nat
  Version : Nat
  TotalCount : Nat
  SumForOpt : Nat
  NumVals : Nat
  mdProf : Option (List InstrProfValueData × Nat)
  mergeFreq : Nat
  numCaseBlocks : Nat
  phiIncoming : Option (List (Nat × BlockTag))
  usesAfter : List (Nat × Nat)
  remainAssertOk : Bool
  savedAssertOk : Bool
  deriving DecidableEq, Repr

/-- Assembles the result of a successful rewrite (lines 411-520) from the
final planning state: default slot of `CaseCounts` set to the final
`RemainCount`, `MaxCount` raised to it if larger, merge-block frequency
set to the host block's frequency recorded before the two splits (a block
freshly created by a split has no recorded frequency, modelled as 0),
profile metadata re-attached as `VDs.slice(Version)` with the reduced
total, one case block per accepted size id, and — for a non-void call —
the phi created at the merge block, all pre-existing uses of the original
call redirected to it, then the incoming values registered (the original
call from the default block first, then one clone per case block). -/
def mkResult (MO : MemOpSite) (pr : ProfileRecord)
    (ActualCount : Nat) (st : PlanState) : PerformResult :=
  let OrigBBFreq := MO.bfi MO.hostId
  let bfiSplit : Nat → Nat := fun b =>
    if b = MO.mergeId then 0 else if b = MO.defaultId then 0 else MO.bfi b
  let bfiAfter : Nat → Nat := fun b =>
    if b = MO.mergeId then OrigBBFreq else bfiSplit b
  let cloneIds : List Nat := (List.range st.SizeIds.length).map (fun i => MO.phiId + 1 + i)
  { SizeIds := st.SizeIds
    CaseCounts := st.RemainCount :: st.CaseCounts
    RemainCount := st.RemainCount
    SavedRemainCount := st.SavedRemainCount
    MaxCount := if st.MaxCount < st.RemainCount then st.RemainCount else st.MaxCount
    Version := st.Version
    TotalCount := ActualCount
    SumForOpt := ActualCount - st.RemainCount
    NumVals := pr.vds.length
    mdProf :=
      if 0 < st.SavedRemainCount ∨ st.Version ≠ pr.vds.length then
        some (pr.vds.drop st.Version, st.SavedRemainCount)
      else none
    mergeFreq := bfiAfter MO.mergeId
    numCaseBlocks := st.SizeIds.length
    phiIncoming :=
      if MO.retVoid then none
      else some ((MO.callId, BlockTag.defaultB) ::
        (st.SizeIds.zip cloneIds).map (fun p => (p.2, BlockTag.caseB p.1)))
    usesAfter :=
      if MO.retVoid then MO.preUses
      else
        MO.preUses.map (fun e => if e.2 = MO.callId then (e.1, MO.phiId) else e)
          ++ (MO.phiId, MO.callId) :: cloneIds.map (fun c => (MO.phiId, c))
    remainAssertOk := st.remainAssertOk
    savedAssertOk := st.savedAssertOk }

/-- MemOPSizeOpt::perform (lines 326-521): the not-applicable gates (move
operation; comparison site with comparison specialization disabled; no
value-profile record; no block count while scaling; actual count below the
count threshold; zero recorded total; zero accepted versions) return
`none`; otherwise the planning loop runs and the rewrite result is
returned. -/
def perform (cfg : MemOPConfig) (svr : Int → Bool) (MO : MemOpSite) :
    Option PerformResult :=
  if MO.kind = .memmoveK then none
  else if !cfg.MemOPOptMemcmpBcmp ∧ (MO.kind = .memcmpK ∨ MO.kind = .bcmpK) then none
  else
    match MO.profile with
    | none => none
    | some pr =>
      match (if cfg.MemOPScaleCount then MO.bbCount else some pr.total) with
      | none => none
      | some ActualCount =>
        if ActualCount < cfg.MemOPCountThreshold then none
        else if pr.total = 0 then none
        else
          if (planLoop cfg svr ActualCount pr.total pr.vds
              (initState ActualCount pr.total)).Version = 0 then none
          else some (mkResult MO pr ActualCount
            (planLoop cfg svr ActualCount pr.total pr.vds (initState ActualCount pr.total)))

/-- An instruction as seen by the worklist scan of `MemOPSizeOpt::visit`
(lines 257-272): a memory intrinsic with a constant or non-constant length
operand, a call to a recognized library function with a constant or
non-constant size argument, or any other instruction. -/
inductive ScanInst
  | memIntrinsic (k : MemOpKind) (lenConst : Bool)
  | libCall (f : Option MemOpKind) (argConst : Bool)
  | otherInst
  deriving DecidableEq, Repr

/-- Whether one instruction is pushed onto the worklist:
`visitMemIntrinsic` (lines 257-263) pushes any memory intrinsic whose
length is not a ConstantInt; `visitCallInst` (lines 265-272) pushes any
recognized memcmp/bcmp call whose size argument is not a ConstantInt.
Note that no configuration flag is consulted here. -/
def visitInstr : ScanInst → Bool
  | .memIntrinsic _ lenConst => !lenConst
  | .libCall (some .memcmpK) argConst => !argConst
  | .libCall (some .bcmpK) argConst => !argConst
  | .libCall _ _ => false
  | .otherInst => false

/-- The worklist produced by the Candidate Collector scan (lines 243-244). -/
def workListOf (l : List ScanInst) : List ScanInst :=
  l.filter visitInstr

/-! Concrete configurations and call sites used by the scenario theorems
and witnesses. -/

/-- The predicate accepting every value, standing for an
`InstrProfIsSingleValRange` that holds on the values of interest. -/
def svrTrue : Int → Bool := fun _ => true

/-- Default configuration with count scaling disabled: threshold 1000,
percent 40, max 3 versions, comparison specialization on, max opt size
128, new value-profile mode. -/
def cfg5 : MemOPConfig := ⟨1000, 40, 3, false, true, 128, false, 0, 0⟩

/-- The copy-operation call site of the spec's first scenario: raw total
10000, samples (16,6000), (32,3000) and (999,1000) — value 999 exceeds
MemOpMaxOptSize, so it fails the value-kind filter. -/
def mo5 : MemOpSite :=
  { kind := .memcpyK
    profile := some ⟨[⟨16, 6000⟩, ⟨32, 3000⟩, ⟨999, 1000⟩], 10000⟩
    bbCount := none
    bfi := fun b => if b = 1 then 77 else 0
    hostId := 1, defaultId := 2, mergeId := 3
    retVoid := true, callId := 4, phiId := 9, preUses := [] }

/-- The value that `perform cfg5 svrTrue mo5` produces. -/
def res5 : PerformResult :=
  { SizeIds := [16, 32], CaseCounts := [1000, 6000, 3000], RemainCount := 1000
    SavedRemainCount := 1000, MaxCount := 6000, Version := 2, TotalCount := 10000
    SumForOpt := 9000, NumVals := 3, mdProf := some ([⟨999, 1000⟩], 1000)
    mergeFreq := 77, numCaseBlocks := 2, phiIncoming := none, usesAfter := []
    remainAssertOk := true, savedAssertOk := true }

/-- Like `cfg5` but with percent threshold 70 (the spec's second
scenario). -/
def cfg70 : MemOPConfig := ⟨1000, 70, 3, false, true, 128, false, 0, 0⟩

/-- Configuration with max version 1, count threshold 100: exposes the
version-cap check. -/
def cfg1 : MemOPConfig := ⟨100, 40, 1, false, true, 128, false, 0, 0⟩

/-- A copy site with two profitable samples under `cfg1`. -/
def mo1 : MemOpSite :=
  { kind := .memcpyK
    profile := some ⟨[⟨1, 600⟩, ⟨2, 300⟩], 1000⟩
    bbCount := none
    bfi := fun _ => 0
    hostId := 1, defaultId := 2, mergeId := 3
    retVoid := true, callId := 4, phiId := 9, preUses := [] }

/-- Configuration with count threshold 100, percent 10, max 3 versions,
scaling off. -/
def cfg2 : MemOPConfig := ⟨100, 10, 3, false, true, 128, false, 0, 0⟩

/-- A copy site whose highest-count sample (999,5000) fails the
value-kind filter while the following two samples are accepted. -/
def mo2 : MemOpSite :=
  { kind := .memcpyK
    profile := some ⟨[⟨999, 5000⟩, ⟨16, 3000⟩, ⟨32, 1500⟩], 10000⟩
    bbCount := none
    bfi := fun _ => 0
    hostId := 1, defaultId := 2, mergeId := 3
    retVoid := true, callId := 4, phiId := 9, preUses := [] }

/-- The rewritten default call of `mo2` carrying exactly the profile
metadata that `perform cfg2 svrTrue mo2` re-attached to it. -/
def mo2b : MemOpSite :=
  { kind := .memcpyK
    profile := some ⟨[⟨32, 1500⟩], 5500⟩
    bbCount := none
    bfi := fun _ => 0
    hostId := 1, defaultId := 2, mergeId := 3
    retVoid := true, callId := 4, phiId := 9, preUses := [] }

/-- Configuration with comparison specialization disabled. -/
def cfgOff : MemOPConfig := ⟨1000, 40, 3, false, false, 128, false, 0, 0⟩

/-- A memcmp call site with a heavily skewed profile that would be
rewritten were comparison specialization enabled. -/
def moCmp : MemOpSite :=
  { kind := .memcmpK
    profile := some ⟨[⟨16, 6000⟩, ⟨32, 3000⟩], 10000⟩
    bbCount := none
    bfi := fun _ => 0
    hostId := 1, defaultId := 2, mergeId := 3
    retVoid := false, callId := 4, phiId := 9, preUses := [(5, 4), (6, 7)] }

/-- A non-void memcmp site (comparison specialization enabled) with two
pre-existing uses of its result, one of them by instruction 5. -/
def moCmpUses : MemOpSite :=
  { kind := .memcmpK
    profile := some ⟨[⟨16, 6000⟩, ⟨32, 3000⟩, ⟨999, 1000⟩], 10000⟩
    bbCount := none
    bfi := fun _ => 0
    hostId := 1, defaultId := 2, mergeId := 3
    retVoid := false, callId := 4, phiId := 9, preUses := [(5, 4), (6, 7)] }

/-- The value that `perform cfg5 svrTrue moCmpUses` produces. -/
def resCmp : PerformResult :=
  { SizeIds := [16, 32], CaseCounts := [1000, 6000, 3000], RemainCount := 1000
    SavedRemainCount := 1000, MaxCount := 6000, Version := 2, TotalCount := 10000
    SumForOpt := 9000, NumVals := 3, mdProf := some ([⟨999, 1000⟩], 1000)
    mergeFreq := 0, numCaseBlocks := 2
    phiIncoming := some [(4, .defaultB), (10, .caseB 16), (11, .caseB 32)]
    usesAfter := [(5, 9), (6, 7), (9, 4), (9, 10), (9, 11)]
    remainAssertOk := true, savedAssertOk := true }

/-- Default configuration with count scaling enabled. -/
def cfgS : MemOPConfig := ⟨1000, 40, 3, true, true, 128, false, 0, 0⟩

/-- A copy site under count scaling: raw total 10000, block count
20000. -/
def moS : MemOpSite :=
  { kind := .memcpyK
    profile := some ⟨[⟨16, 6000⟩, ⟨32, 3000⟩, ⟨999, 1000⟩], 10000⟩
    bbCount := some 20000
    bfi := fun _ => 0
    hostId := 1, defaultId := 2, mergeId := 3
    retVoid := true, callId := 4, phiId := 9, preUses := [] }

/-- A copy site with a move-operation kind. -/
def moMove : MemOpSite :=
  { kind := .memmoveK
    profile := some ⟨[⟨16, 6000⟩], 10000⟩
    bbCount := none
    bfi := fun _ => 0
    hostId := 1, defaultId := 2, mergeId := 3
    retVoid := true, callId := 4, phiId := 9, preUses := [] }

/-- A copy site with no value-profile record. -/
def moNoProf : MemOpSite :=
  { kind := .memcpyK
    profile := none
    bbCount := some 20000
    bfi := fun _ => 0
    hostId := 1, defaultId := 2, mergeId := 3
    retVoid := true, callId := 4, phiId := 9, preUses := [] }

/-- A copy site with a profile but no block count available. -/
def moNoBB : MemOpSite :=
  { kind := .memcpyK
    profile := some ⟨[⟨16, 6000⟩], 10000⟩
    bbCount := none
    bfi := fun _ => 0
    hostId := 1, defaultId := 2, mergeId := 3
    retVoid := true, callId := 4, phiId := 9, preUses := [] }

/-- A copy site whose total 500 is below the count threshold of cfg5. -/
def moLow : MemOpSite :=
  { kind := .memcpyK
    profile := some ⟨[⟨16, 300⟩], 500⟩
    bbCount := none
    bfi := fun _ => 0
    hostId := 1, defaultId := 2, mergeId := 3
    retVoid := true, callId := 4, phiId := 9, preUses := [] }

/-- A copy site with a zero recorded total. -/
def moZero : MemOpSite :=
  { kind := .memcpyK
    profile := some ⟨[], 0⟩
    bbCount := some 20000
    bfi := fun _ => 0
    hostId := 1, defaultId := 2, mergeId := 3
    retVoid := true, callId := 4, phiId := 9, preUses := [] }

/-! Arithmetic helper lemmas for the conservation invariant. -/

lemma sum_div_le (l : List Nat) (d : Nat) :
    (l.map (fun x => x / d)).sum ≤ l.sum / d := by
  induction l with
  | nil => simp
  | cons a t ih =>
    simp only [List.map_cons, List.sum_cons]
    calc a / d + (t.map (fun x => x / d)).sum
        ≤ a / d + t.sum / d := Nat.add_le_add_left ih _
      _ ≤ (a + t.sum) / d := Nat.add_div_le_add_div _ _ _

lemma scaledOf_le (cfg : MemOPConfig) (hs : cfg.MemOPScaleCount = true)
    (A S : Nat) (VD : InstrProfValueData) :
    scaledOf cfg A S VD ≤ VD.Count * A / S := by
  simp only [scaledOf, getScaledCount, hs, Bool.not_true, if_true, Bool.false_eq_true,
    if_false]
  exact Nat.div_le_div_right (min_le_left _ _)

lemma sum_map_count_mul (l : List InstrProfValueData) (A : Nat) :
    (l.map (fun vd => vd.Count * A)).sum = (l.map (fun vd => vd.Count)).sum * A := by
  induction l with
  | nil => simp
  | cons a t ih => simp [ih, Nat.add_mul]

/-- Under count scaling, the scaled counts of a sample list whose raw
counts sum to at most the raw total `S` sum to at most the actual count
`A`: pointwise the saturated product is at most the true product, the sum
of floors is at most the floor of the sum, and `(S * A) / S = A`. -/
lemma scaled_sum_le (cfg : MemOPConfig) (hs : cfg.MemOPScaleCount = true)
    (A S : Nat) (hS : S ≠ 0) (l : List InstrProfValueData)
    (hraw : (l.map (fun vd => vd.Count)).sum ≤ S) :
    (l.map (scaledOf cfg A S)).sum ≤ A := by
  have h1 : (l.map (scaledOf cfg A S)).sum ≤ (l.map (fun vd => vd.Count * A / S)).sum :=
    List.sum_le_sum (fun vd _ => scaledOf_le cfg hs A S vd)
  have h2 : (l.map (fun vd => vd.Count * A / S)).sum ≤ (l.map (fun vd => vd.Count * A)).sum / S := by
    have := sum_div_le (l.map (fun vd => vd.Count * A)) S
    simpa [List.map_map, Function.comp] using this
  have h3 : (l.map (fun vd => vd.Count * A)).sum = (l.map (fun vd => vd.Count)).sum * A :=
    sum_map_count_mul l A
  have h4 : (l.map (fun vd => vd.Count)).sum * A / S ≤ S * A / S :=
    Nat.div_le_div_right (Nat.mul_le_mul_right A hraw)
  have h5 : S * A / S = A := Nat.mul_div_cancel_left A (Nat.pos_of_ne_zero hS)
  calc (l.map (scaledOf cfg A S)).sum
      ≤ (l.map (fun vd => vd.Count * A / S)).sum := h1
    _ ≤ (l.map (fun vd => vd.Count * A)).sum / S := h2
    _ = (l.map (fun vd => vd.Count)).sum * A / S := by rw [h3]
    _ ≤ S * A / S := h4
    _ = A := h5

/-- Main invariant of the planning loop: as long as the scaled counts of
the pending samples fit in the remaining count and their raw counts fit
in the remaining raw count, both in-loop asserts hold at every
acceptance, and remaining-plus-selected is preserved (for both the scaled
and the raw tracker). -/
lemma planLoop_inv (cfg : MemOPConfig) (svr : Int → Bool) (A S : Nat)
    (l : List InstrProfValueData) (st : PlanState)
    (hscaled : (l.map (scaledOf cfg A S)).sum ≤ st.RemainCount)
    (hraw : (l.map (fun vd => vd.Count)).sum ≤ st.SavedRemainCount)
    (hrOk : st.remainAssertOk = true) (hsOk : st.savedAssertOk = true) :
    (planLoop cfg svr A S l st).remainAssertOk = true ∧
    (planLoop cfg svr A S l st).savedAssertOk = true ∧
    (planLoop cfg svr A S l st).RemainCount + (planLoop cfg svr A S l st).CaseCounts.sum
      = st.RemainCount + st.CaseCounts.sum := by
  induction l generalizing st with
  | nil => exact ⟨hrOk, hsOk, rfl⟩
  | cons VD rest ih =>
    simp only [List.map_cons, List.sum_cons] at hscaled hraw
    simp only [planLoop]
    by_cases hskip : skipSample cfg svr VD.Value = true
    · rw [if_pos hskip]
      exact ih st (by omega) (by omega) hrOk hsOk
    · rw [if_neg hskip]
      by_cases hprof : isProfitable cfg (scaledOf cfg A S VD) st.RemainCount = true
      · rw [if_neg (by simp [hprof])]
        have hC : scaledOf cfg A S VD ≤ st.RemainCount := by omega
        have hRaw : VD.Count ≤ st.SavedRemainCount := by omega
        have hrOk' : (acceptSample st VD.Value VD.Count (scaledOf cfg A S VD)).remainAssertOk
            = true := by
          simp [acceptSample, hrOk, hC]
        have hsOk' : (acceptSample st VD.Value VD.Count (scaledOf cfg A S VD)).savedAssertOk
            = true := by
          simp [acceptSample, hsOk, hRaw]
        have hcons : (acceptSample st VD.Value VD.Count (scaledOf cfg A S VD)).RemainCount
            + (acceptSample st VD.Value VD.Count (scaledOf cfg A S VD)).CaseCounts.sum
            = st.RemainCount + st.CaseCounts.sum := by
          simp only [acceptSample, List.sum_append, List.sum_cons, List.sum_nil]
          omega
        split
        · exact ⟨hrOk', hsOk', hcons⟩
        · have hscaled' : (rest.map (scaledOf cfg A S)).sum
              ≤ (acceptSample st VD.Value VD.Count (scaledOf cfg A S VD)).RemainCount := by
            simp only [acceptSample]
            omega
          have hraw' : (rest.map (fun vd => vd.Count)).sum
              ≤ (acceptSample st VD.Value VD.Count (scaledOf cfg A S VD)).SavedRemainCount := by
            simp only [acceptSample]
            omega
          obtain ⟨a, b, c⟩ := ih _ hscaled' hraw' hrOk' hsOk'
          exact ⟨a, b, by rw [c, hcons]⟩
      · rw [if_pos (by simp [hprof])]
        exact ⟨hrOk, hsOk, rfl⟩

/-- Inversion of a successful `perform`: the gates passed and the result
is `mkResult` of the planning-loop state. -/
lemma perform_some_inv (cfg : MemOPConfig) (svr : Int → Bool) (MO : MemOpSite)
    (r : PerformResult) (h : perform cfg svr MO = some r) :
    ∃ pr ActualCount,
      MO.profile = some pr ∧
      (if cfg.MemOPScaleCount then MO.bbCount else some pr.total) = some ActualCount ∧
      ¬ ActualCount < cfg.MemOPCountThreshold ∧
      pr.total ≠ 0 ∧
      (planLoop cfg svr ActualCount pr.total pr.vds
        (initState ActualCount pr.total)).Version ≠ 0 ∧
      r = mkResult MO pr ActualCount
        (planLoop cfg svr ActualCount pr.total pr.vds (initState ActualCount pr.total)) := by
  unfold perform at h
  split at h
  · exact absurd h (by simp)
  · split at h
    · exact absurd h (by simp)
    · split at h
      · exact absurd h (by simp)
      · rename_i pr hpr
        split at h
        · exact absurd h (by simp)
        · rename_i ActualCount hA
          split at h
          · exact absurd h (by simp)
          · split at h
            · exact absurd h (by simp)
            · split at h
              · exact absurd h (by simp)
              · rename_i h1 h2 h3
                exact ⟨pr, ActualCount, hpr, hA, h1, h2, h3, (Option.some.injEq _ _ ▸ h).symm⟩

/-! Projection lemmas for `mkResult`. -/

lemma mkResult_SizeIds (MO : MemOpSite) (pr : ProfileRecord) (A : Nat) (st : PlanState) :
    (mkResult MO pr A st).SizeIds = st.SizeIds := rfl

lemma mkResult_CaseCounts (MO : MemOpSite) (pr : ProfileRecord) (A : Nat) (st : PlanState) :
    (mkResult MO pr A st).CaseCounts = st.RemainCount :: st.CaseCounts := rfl

lemma mkResult_RemainCount (MO : MemOpSite) (pr : ProfileRecord) (A : Nat) (st : PlanState) :
    (mkResult MO pr A st).RemainCount = st.RemainCount := rfl

lemma mkResult_TotalCount (MO : MemOpSite) (pr : ProfileRecord) (A : Nat) (st : PlanState) :
    (mkResult MO pr A st).TotalCount = A := rfl

lemma mkResult_numCaseBlocks (MO : MemOpSite) (pr : ProfileRecord) (A : Nat) (st : PlanState) :
    (mkResult MO pr A st).numCaseBlocks = st.SizeIds.length := rfl

lemma mkResult_remainAssertOk (MO : MemOpSite) (pr : ProfileRecord) (A : Nat) (st : PlanState) :
    (mkResult MO pr A st).remainAssertOk = st.remainAssertOk := rfl

lemma mkResult_savedAssertOk (MO : MemOpSite) (pr : ProfileRecord) (A : Nat) (st : PlanState) :
    (mkResult MO pr A st).savedAssertOk = st.savedAssertOk := rfl

lemma mkResult_mergeFreq (MO : MemOpSite) (pr : ProfileRecord) (A : Nat) (st : PlanState) :
    (mkResult MO pr A st).mergeFreq = MO.bfi MO.hostId := by
  unfold mkResult
  simp

lemma mkResult_phiIncoming (MO : MemOpSite) (pr : ProfileRecord) (A : Nat) (st : PlanState)
    (hnv : MO.retVoid = false) :
    (mkResult MO pr A st).phiIncoming
      = some ((MO.callId, BlockTag.defaultB) ::
          (st.SizeIds.zip ((List.range st.SizeIds.length).map (fun i => MO.phiId + 1 + i))).map
            (fun p => (p.2, BlockTag.caseB p.1))) := by
  unfold mkResult
  simp [hnv]

lemma mkResult_usesAfter (MO : MemOpSite) (pr : ProfileRecord) (A : Nat) (st : PlanState)
    (hnv : MO.retVoid = false) :
    (mkResult MO pr A st).usesAfter
      = MO.preUses.map (fun e => if e.2 = MO.callId then (e.1, MO.phiId) else e)
          ++ (MO.phiId, MO.callId) ::
            ((List.range st.SizeIds.length).map (fun i => MO.phiId + 1 + i)).map
              (fun c => (MO.phiId, c)) := by
  unfold mkResult
  simp [hnv]

/-! Gate lemmas: each not-applicable condition makes `perform` return
`none`. -/

lemma perform_none_of_memmove (cfg : MemOPConfig) (svr : Int → Bool) (MO : MemOpSite)
    (h : MO.kind = .memmoveK) : perform cfg svr MO = none := by
  unfold perform
  rw [if_pos h]

lemma perform_none_of_cmp_disabled (cfg : MemOPConfig) (svr : Int → Bool) (MO : MemOpSite)
    (hflag : cfg.MemOPOptMemcmpBcmp = false)
    (hk : MO.kind = .memcmpK ∨ MO.kind = .bcmpK) : perform cfg svr MO = none := by
  unfold perform
  have hmv : ¬ MO.kind = .memmoveK := by rcases hk with h | h <;> simp [h]
  rw [if_neg hmv, if_pos ⟨by simp [hflag], hk⟩]

lemma perform_none_of_no_profile (cfg : MemOPConfig) (svr : Int → Bool) (MO : MemOpSite)
    (h : MO.profile = none) : perform cfg svr MO = none := by
  unfold perform
  rw [h]
  split
  · rfl
  · split
    · rfl
    · rfl

lemma perform_none_of_no_bbcount (cfg : MemOPConfig) (svr : Int → Bool) (MO : MemOpSite)
    (hs : cfg.MemOPScaleCount = true) (hb : MO.bbCount = none) :
    perform cfg svr MO = none := by
  unfold perform
  rw [hs, hb]
  split
  · rfl
  · split
    · rfl
    · split
      · rfl
      · simp

lemma perform_none_of_threshold (cfg : MemOPConfig) (svr : Int → Bool) (MO : MemOpSite)
    (pr : ProfileRecord) (A : Nat) (hpr : MO.profile = some pr)
    (hA : (if cfg.MemOPScaleCount then MO.bbCount else some pr.total) = some A)
    (hlt : A < cfg.MemOPCountThreshold) : perform cfg svr MO = none := by
  cases h : perform cfg svr MO with
  | none => rfl
  | some r =>
    obtain ⟨pr', A', hpr', hA', hthr', _, _, _⟩ := perform_some_inv cfg svr MO r h
    rw [hpr] at hpr'
    injection hpr' with hpe
    subst hpe
    rw [hA] at hA'
    injection hA' with hAe
    subst hAe
    exact absurd hlt hthr'

lemma perform_none_of_total_zero (cfg : MemOPConfig) (svr : Int → Bool) (MO : MemOpSite)
    (pr : ProfileRecord) (hpr : MO.profile = some pr) (htot : pr.total = 0) :
    perform cfg svr MO = none := by
  cases h : perform cfg svr MO with
  | none => rfl
  | some r =>
    obtain ⟨pr', _, hpr', _, _, htot', _, _⟩ := perform_some_inv cfg svr MO r h
    rw [hpr] at hpr'
    injection hpr' with hpe
    subst hpe
    exact absurd htot htot'

lemma perform_none_of_version_zero (cfg : MemOPConfig) (svr : Int → Bool) (MO : MemOpSite)
    (pr : ProfileRecord) (A : Nat) (hpr : MO.profile = some pr)
    (hA : (if cfg.MemOPScaleCount then MO.bbCount else some pr.total) = some A)
    (hv : (planLoop cfg svr A pr.total pr.vds (initState A pr.total)).Version = 0) :
    perform cfg svr MO = none := by
  cases h : perform cfg svr MO with
  | none => rfl
  | some r =>
    obtain ⟨pr', A', hpr', hA', _, _, hver', _⟩ := perform_some_inv cfg svr MO r h
    rw [hpr] at hpr'
    injection hpr' with hpe
    subst hpe
    rw [hA] at hA'
    injection hA' with hAe
    subst hAe
    exact absurd hv hver'

/-! Claim theorems. -/

/-- C1: the version cap is off by one.  With `MemOPMaxVersion = 1`
(non-zero), the samples (1,600) and (2,300) over total 1000 under
threshold 100 and percent 40 are both accepted, so the accepted plan has
2 versions and the rewrite creates 2 case blocks — one more than the
configured maximum: the loop pushes the sample before testing
`++Version > MemOPMaxVersion`. -/
theorem claim_C1_version_cap_exceeded :
    cfg1.MemOPMaxVersion = 1 ∧ cfg1.MemOPMaxVersion ≠ 0 ∧
    (perform cfg1 svrTrue mo1).map (fun r => (r.Version, r.numCaseBlocks))
      = some (2, 2) := by decide

/-- C2: the re-attached profile metadata is `VDs.slice(Version)`, which
misaligns with the promoted set when a sample was skipped by the
value-kind filter before an accepted one.  For samples
(999,5000),(16,3000),(32,1500) with 999 filtered out, sizes 16 and 32 are
promoted, yet the default call is re-annotated with [(32,1500)] — a
promoted value — and re-running the engine on that re-annotated default
call promotes size 32 again. -/
theorem claim_C2_reannotation_misaligned :
    (perform cfg2 svrTrue mo2).map (fun r => (r.SizeIds, r.mdProf))
      = some ([16, 32], some ([⟨32, 1500⟩], 5500)) ∧
    (perform cfg2 svrTrue mo2b).map (fun r => r.SizeIds) = some [32] := by decide

/-- C3: for every accepted plan over samples whose raw counts sum to at
most the raw recorded total, the sum of the selected scaled counts plus
the leftover default count equals the scaled total used for planning, and
the in-loop asserts (each accepted scaled count at most the remaining
count at acceptance, each raw count at most the remaining raw count) held
at every acceptance — with or without count scaling. -/
theorem claim_C3_conservation (cfg : MemOPConfig) (svr : Int → Bool) (MO : MemOpSite)
    (r : PerformResult) (pr : ProfileRecord)
    (hperf : perform cfg svr MO = some r) (hpr : MO.profile = some pr)
    (hraw : (pr.vds.map (fun vd => vd.Count)).sum ≤ pr.total) :
    r.CaseCounts.tail.sum + r.RemainCount = r.TotalCount ∧
    r.remainAssertOk = true ∧ r.savedAssertOk = true := by
  obtain ⟨pr', A, hpr', hA, hthr, htot, hver, hr⟩ := perform_some_inv cfg svr MO r hperf
  rw [hpr] at hpr'
  injection hpr' with hpe
  subst hpe
  have hscaled : (pr.vds.map (scaledOf cfg A pr.total)).sum ≤ A := by
    by_cases hs : cfg.MemOPScaleCount = true
    · exact scaled_sum_le cfg hs A pr.total htot pr.vds hraw
    · have hsf : cfg.MemOPScaleCount = false := by
        revert hs; cases cfg.MemOPScaleCount <;> simp
      rw [hsf] at hA
      simp only [Bool.false_eq_true, if_false, Option.some.injEq] at hA
      have heq : scaledOf cfg A pr.total = fun vd => vd.Count := by
        funext vd
        simp [scaledOf, hsf]
      rw [heq, ← hA]
      exact hraw
  obtain ⟨hrOk, hsOk, hcons⟩ :=
    planLoop_inv cfg svr A pr.total pr.vds (initState A pr.total)
      (by simpa [initState] using hscaled) (by simpa [initState] using hraw) rfl rfl
  have hcons' : (planLoop cfg svr A pr.total pr.vds (initState A pr.total)).RemainCount
      + (planLoop cfg svr A pr.total pr.vds (initState A pr.total)).CaseCounts.sum = A := by
    rw [hcons]
    simp [initState]
  subst hr
  refine ⟨?_, by rw [mkResult_remainAssertOk]; exact hrOk,
    by rw [mkResult_savedAssertOk]; exact hsOk⟩
  rw [mkResult_CaseCounts, mkResult_RemainCount, mkResult_TotalCount, List.tail_cons]
  omega

/-- C3 witness at the scenario input of cfg5/mo5. -/
theorem claim_C3_witness :
    res5.CaseCounts.tail.sum + res5.RemainCount = res5.TotalCount ∧
    res5.remainAssertOk = true ∧ res5.savedAssertOk = true :=
  claim_C3_conservation cfg5 svrTrue mo5 res5
    ⟨[⟨16, 6000⟩, ⟨32, 3000⟩, ⟨999, 1000⟩], 10000⟩ (by decide) rfl (by decide)

/-- C4: a sample passing the filter is accepted exactly when its scaled
count reaches the count threshold and `remaining * percent / 100` (uint64
arithmetic); the loop breaks at the first sample failing the
profitability test without evaluating later samples, whereas a sample
failing only the value-kind filter is skipped and the loop continues; and
in the spec's percent-70 scenario (raw total 10000, first count 6000) no
version is accepted and no rewrite happens. -/
theorem claim_C4_profitability_and_break (cfg : MemOPConfig) (svr : Int → Bool) :
    (∀ Count TotalCount : Nat,
      isProfitable cfg Count TotalCount = true ↔
        (cfg.MemOPCountThreshold ≤ Count ∧
          TotalCount * cfg.MemOPPercentThreshold % 2 ^ 64 / 100 ≤ Count)) ∧
    (∀ (A S : Nat) (VD : InstrProfValueData) (rest : List InstrProfValueData)
        (st : PlanState),
      skipSample cfg svr VD.Value = false →
      isProfitable cfg (scaledOf cfg A S VD) st.RemainCount = false →
      planLoop cfg svr A S (VD :: rest) st = st) ∧
    (∀ (A S : Nat) (VD : InstrProfValueData) (rest : List InstrProfValueData)
        (st : PlanState),
      skipSample cfg svr VD.Value = true →
      planLoop cfg svr A S (VD :: rest) st = planLoop cfg svr A S rest st) ∧
    perform cfg70 svrTrue mo5 = none := by
  refine ⟨?_, ?_, ?_, by decide⟩
  · intro Count TotalCount
    unfold isProfitable
    generalize TotalCount * cfg.MemOPPercentThreshold % 2 ^ 64 / 100 = t
    split
    · rename_i h
      simp only [Bool.false_eq_true, false_iff]
      omega
    · rename_i h
      split
      · rename_i h2
        simp only [Bool.false_eq_true, false_iff]
        omega
      · rename_i h2
        simp only [true_iff]
        omega
  · intro A S VD rest st hskip hprof
    simp only [planLoop]
    rw [if_neg (by simp [hskip]), if_pos (by simp [hprof])]
  · intro A S VD rest st hskip
    simp only [planLoop]
    rw [if_pos hskip]

/-- C4 witness: the profitability characterization at (6000, 10000), the
break at an unprofitable first sample, and the skip of a filtered
sample. -/
theorem claim_C4_witness :
    (isProfitable cfg5 6000 10000 = true ↔
      (cfg5.MemOPCountThreshold ≤ 6000 ∧
        10000 * cfg5.MemOPPercentThreshold % 2 ^ 64 / 100 ≤ 6000)) ∧
    planLoop cfg5 svrTrue 10 10 [⟨16, 1⟩] (initState 10 10) = initState 10 10 ∧
    planLoop cfg5 svrTrue 10 10 [⟨999, 5⟩] (initState 10 10)
      = planLoop cfg5 svrTrue 10 10 [] (initState 10 10) :=
  ⟨(claim_C4_profitability_and_break cfg5 svrTrue).1 6000 10000,
   (claim_C4_profitability_and_break cfg5 svrTrue).2.1 10 10 ⟨16, 1⟩ [] (initState 10 10)
     (by decide) (by decide),
   (claim_C4_profitability_and_break cfg5 svrTrue).2.2.1 10 10 ⟨999, 5⟩ [] (initState 10 10)
     (by decide)⟩

/-- C5: the spec's copy-operation scenario — raw total 10000, samples
(16,6000),(32,3000),(999,1000) with 999 failing the value-kind filter,
threshold 1000, percent 40, max 3 versions, scaling disabled — yields
exactly the plan sizes [16,32] with counts [6000,3000], leftover 1000
(the head of CaseCounts, the default slot), maximum count 6000, and 2
case blocks (plus the default block whose count is that leftover). -/
theorem claim_C5_scenario :
    (perform cfg5 svrTrue mo5).map
        (fun r => (r.SizeIds, r.CaseCounts, r.RemainCount, r.MaxCount, r.Version,
          r.numCaseBlocks))
      = some ([16, 32], [1000, 6000, 3000], 1000, 6000, 2, 2) := by decide

/-- C6: for every successful rewrite, the frequency recorded on the merge
block equals the host block's frequency as recorded before any split
(both splits leave freshly created blocks with no recorded frequency; the
merge block is then set to the value recorded up front). -/
theorem claim_C6_merge_freq (cfg : MemOPConfig) (svr : Int → Bool) (MO : MemOpSite)
    (r : PerformResult) (hperf : perform cfg svr MO = some r) :
    r.mergeFreq = MO.bfi MO.hostId := by
  obtain ⟨pr, A, _, _, _, _, _, hr⟩ := perform_some_inv cfg svr MO r hperf
  subst hr
  exact mkResult_mergeFreq MO pr A _

/-- C6 witness: in the cfg5/mo5 scenario the merge block frequency equals
the host block's recorded frequency 77. -/
theorem claim_C6_witness : res5.mergeFreq = mo5.bfi mo5.hostId :=
  claim_C6_merge_freq cfg5 svrTrue mo5 res5 (by decide)

/-- C7 counterexample: the Candidate Collector consults no flag — with
comparison specialization disabled, a memcmp call with a non-constant
size argument is still added to the worklist, refuting the claim that it
is added only when the flag is enabled. -/
theorem claim_C7_counterexample :
    cfgOff.MemOPOptMemcmpBcmp = false ∧
    workListOf [ScanInst.libCall (some .memcmpK) false]
      = [ScanInst.libCall (some .memcmpK) false] := by decide

/-- C7 (amended): a memcmp/bcmp call with a non-constant size argument is
added to the worklist regardless of the comparison-specialization flag;
but when the flag is disabled, `perform` rejects such a site with no
rewrite, so it is never rewritten. -/
theorem claim_C7_flag_blocks_rewrite (cfg : MemOPConfig) (svr : Int → Bool)
    (MO : MemOpSite) (argConst : Bool)
    (hflag : cfg.MemOPOptMemcmpBcmp = false)
    (hk : MO.kind = .memcmpK ∨ MO.kind = .bcmpK) :
    visitInstr (ScanInst.libCall (some .memcmpK) argConst) = !argConst ∧
    visitInstr (ScanInst.libCall (some .bcmpK) argConst) = !argConst ∧
    perform cfg svr MO = none :=
  ⟨rfl, rfl, perform_none_of_cmp_disabled cfg svr MO hflag hk⟩

/-- C7 witness: a memcmp site with a heavy profile under the disabled
flag is collected but not rewritten. -/
theorem claim_C7_witness :
    visitInstr (ScanInst.libCall (some .memcmpK) false) = !false ∧
    visitInstr (ScanInst.libCall (some .bcmpK) false) = !false ∧
    perform cfgOff svrTrue moCmp = none :=
  claim_C7_flag_blocks_rewrite cfgOff svrTrue moCmp false rfl (Or.inl rfl)

/-- C8: every not-applicable condition — move operation, comparison site
with disabled comparison specialization, missing profile, unavailable
block count under scaling, actual total below the count threshold, zero
raw recorded total, zero accepted versions — makes `perform` return
`none` (candidate skipped, no rewrite, no error value in the model). -/
theorem claim_C8_not_applicable_skips (cfg : MemOPConfig) (svr : Int → Bool)
    (MO : MemOpSite) :
    (MO.kind = .memmoveK → perform cfg svr MO = none) ∧
    (cfg.MemOPOptMemcmpBcmp = false → (MO.kind = .memcmpK ∨ MO.kind = .bcmpK) →
      perform cfg svr MO = none) ∧
    (MO.profile = none → perform cfg svr MO = none) ∧
    (cfg.MemOPScaleCount = true → MO.bbCount = none → perform cfg svr MO = none) ∧
    (∀ (pr : ProfileRecord) (A : Nat), MO.profile = some pr →
      (if cfg.MemOPScaleCount then MO.bbCount else some pr.total) = some A →
      A < cfg.MemOPCountThreshold → perform cfg svr MO = none) ∧
    (∀ pr : ProfileRecord, MO.profile = some pr → pr.total = 0 →
      perform cfg svr MO = none) ∧
    (∀ (pr : ProfileRecord) (A : Nat), MO.profile = some pr →
      (if cfg.MemOPScaleCount then MO.bbCount else some pr.total) = some A →
      (planLoop cfg svr A pr.total pr.vds (initState A pr.total)).Version = 0 →
      perform cfg svr MO = none) :=
  ⟨perform_none_of_memmove cfg svr MO,
   perform_none_of_cmp_disabled cfg svr MO,
   perform_none_of_no_profile cfg svr MO,
   perform_none_of_no_bbcount cfg svr MO,
   fun pr A hpr hA hlt => perform_none_of_threshold cfg svr MO pr A hpr hA hlt,
   fun pr hpr htot => perform_none_of_total_zero cfg svr MO pr hpr htot,
   fun pr A hpr hA hv => perform_none_of_version_zero cfg svr MO pr A hpr hA hv⟩

/-- C8 witness: one concrete skipped site per not-applicable condition. -/
theorem claim_C8_witness :
    perform cfg5 svrTrue moMove = none ∧
    perform cfgOff svrTrue moCmp = none ∧
    perform cfg5 svrTrue moNoProf = none ∧
    perform cfgS svrTrue moNoBB = none ∧
    perform cfg5 svrTrue moLow = none ∧
    perform cfgS svrTrue moZero = none ∧
    perform cfg70 svrTrue mo5 = none :=
  ⟨(claim_C8_not_applicable_skips cfg5 svrTrue moMove).1 rfl,
   (claim_C8_not_applicable_skips cfgOff svrTrue moCmp).2.1 rfl (Or.inl rfl),
   (claim_C8_not_applicable_skips cfg5 svrTrue moNoProf).2.2.1 rfl,
   (claim_C8_not_applicable_skips cfgS svrTrue moNoBB).2.2.2.1 rfl rfl,
   (claim_C8_not_applicable_skips cfg5 svrTrue moLow).2.2.2.2.1
     ⟨[⟨16, 300⟩], 500⟩ 500 rfl (by decide) (by decide),
   (claim_C8_not_applicable_skips cfgS svrTrue moZero).2.2.2.2.2.1 ⟨[], 0⟩ rfl rfl,
   (claim_C8_not_applicable_skips cfg70 svrTrue mo5).2.2.2.2.2.2
     ⟨[⟨16, 6000⟩, ⟨32, 3000⟩, ⟨999, 1000⟩], 10000⟩ 10000 rfl (by decide) (by decide)⟩

/-- C9: with scaling disabled the scaled count is the raw count
unchanged; with scaling enabled it is the saturating product of the raw
count and the actual total, divided by the raw total; and the planning
loop (hence any division by the raw total) is only reached when the raw
recorded total is non-zero — a zero total makes `perform` bail out
first. -/
theorem claim_C9_scaled_count (cfg : MemOPConfig) (svr : Int → Bool) :
    (∀ Count Num Denom : Nat, cfg.MemOPScaleCount = false →
      getScaledCount cfg Count Num Denom = Count) ∧
    (∀ Count Num Denom : Nat, cfg.MemOPScaleCount = true →
      getScaledCount cfg Count Num Denom = SaturatingMultiply Count Num / Denom) ∧
    (∀ (MO : MemOpSite) (pr : ProfileRecord), MO.profile = some pr → pr.total = 0 →
      perform cfg svr MO = none) := by
  refine ⟨?_, ?_, fun MO pr hpr htot => perform_none_of_total_zero cfg svr MO pr hpr htot⟩
  · intro Count Num Denom h
    simp [getScaledCount, h]
  · intro Count Num Denom h
    simp [getScaledCount, h]

/-- C9 witness: concrete scaled counts with scaling off and on, and the
zero-total bail-out. -/
theorem claim_C9_witness :
    getScaledCount cfg5 5 6 7 = 5 ∧
    getScaledCount cfgS 5 6 7 = SaturatingMultiply 5 6 / 7 ∧
    perform cfg5 svrTrue moZero = none :=
  ⟨(claim_C9_scaled_count cfg5 svrTrue).1 5 6 7 rfl,
   (claim_C9_scaled_count cfgS svrTrue).2.1 5 6 7 rfl,
   (claim_C9_scaled_count cfg5 svrTrue).2.2 moZero ⟨[], 0⟩ rfl rfl⟩

/-- C10: for a successful rewrite of a non-void call (with the phi id
distinct from the call's id, as the phi is freshly created), the merge
phi exists, has exactly one incoming value per created case block plus
one — the original call's result — from the default block as its first
entry; every use edge still referring to the original call's result
belongs to the phi (the merge structure); and every pre-existing use of
the original call's result now references the phi. -/
theorem claim_C10_phi_rauw (cfg : MemOPConfig) (svr : Int → Bool) (MO : MemOpSite)
    (r : PerformResult) (hperf : perform cfg svr MO = some r)
    (hnv : MO.retVoid = false) (hfresh : MO.phiId ≠ MO.callId) :
    r.phiIncoming ≠ none ∧
    (r.phiIncoming.getD []).length = r.numCaseBlocks + 1 ∧
    (r.phiIncoming.getD []).head? = some (MO.callId, BlockTag.defaultB) ∧
    (∀ e ∈ r.usesAfter, e.2 = MO.callId → e.1 = MO.phiId) ∧
    (∀ e ∈ MO.preUses, e.2 = MO.callId → (e.1, MO.phiId) ∈ r.usesAfter) := by
  obtain ⟨pr, A, _, _, _, _, _, hr⟩ := perform_some_inv cfg svr MO r hperf
  subst hr
  rw [mkResult_phiIncoming _ pr A _ hnv, mkResult_usesAfter _ pr A _ hnv,
    mkResult_numCaseBlocks]
  refine ⟨by simp, ?_, by simp, ?_, ?_⟩
  · simp [List.length_zip]
  · intro e he hc
    rcases List.mem_append.mp he with h | h
    · obtain ⟨e₀, he₀, hfe⟩ := List.mem_map.mp h
      by_cases h0 : e₀.2 = MO.callId
      · rw [if_pos h0] at hfe
        rw [← hfe] at hc
        exact absurd hc hfresh
      · rw [if_neg h0] at hfe
        rw [← hfe] at hc
        exact absurd hc h0
    · rcases List.mem_cons.mp h with h1 | h1
      · rw [h1]
      · obtain ⟨c, _, hce⟩ := List.mem_map.mp h1
        rw [← hce]
  · intro e he hc
    apply List.mem_append_left
    exact List.mem_map.mpr ⟨e, he, by rw [if_pos hc]⟩

/-- C10 witness at the non-void memcmp site moCmpUses. -/
theorem claim_C10_witness :
    resCmp.phiIncoming ≠ none ∧
    (resCmp.phiIncoming.getD []).length = resCmp.numCaseBlocks + 1 ∧
    (resCmp.phiIncoming.getD []).head? = some (moCmpUses.callId, BlockTag.defaultB) ∧
    (∀ e ∈ resCmp.usesAfter, e.2 = moCmpUses.callId → e.1 = moCmpUses.phiId) ∧
    (∀ e ∈ moCmpUses.preUses, e.2 = moCmpUses.callId →
      (e.1, moCmpUses.phiId) ∈ resCmp.usesAfter) :=
  claim_C10_phi_rauw cfg5 svrTrue moCmpUses resCmp (by decide) rfl (by decide)

end PGOMemOP
